import Mathlib

/-!
Verification of the delta capture-and-replay engine of db-delta-tracker.

The embedding follows the Go sources:
  * `src/cmd/main.go`  — the replay engine (`RestoreDatabase`, `tableExists`),
  * `src/init/init.go` — the change-capture installer (`addTriggersToTables`)
    and the trigger bodies it installs.

Machine-level aspects are modelled as follows: SQL NULL columns become
`Option`; a Go `map[string]interface{}` obtained from `json.Unmarshal` becomes
an association list, with the Go nil map modelled as `none`; indexing a nil
map yields the zero value, modelled by `goIndex none k = none`; dereferencing
a nil `*json.RawMessage` is a runtime panic, modelled by the `crash` outcome.
-/

namespace DeltaTracker

/-- A scalar column value as it appears in a decoded row-snapshot payload. -/
inductive Value where
  | vint : Int → Value
  | vstr : String → Value
deriving DecidableEq

/-- A decoded JSON object: column name to value, in field order. -/
abbrev Fields := List (String × Value)

/-- Field lookup in a decoded object (Go map indexing on a non-nil map). -/
def lookupField : Fields → String → Option Value
  | [], _ => none
  | (k, v) :: rest, key => if k = key then some v else lookupField rest key

/-- A stored JSONB payload: either a wellformed object, or bytes that
`json.Unmarshal` rejects. -/
inductive Payload where
  | obj : Fields → Payload
  | malformed : Payload
deriving DecidableEq

/-- One row of the `deltas` table (src/init/init.go `createDeltasTable`):
`id SERIAL`, `action`, `table_name`, nullable `old_data` / `new_data`,
`timestamp`.  Timestamps are modelled as naturals. -/
structure Delta where
  id : Nat
  action : String
  table_name : String
  old_data : Option Payload
  new_data : Option Payload
  timestamp : Nat
deriving DecidableEq

/-- A row of a restored table with the fixed (id, name, age) column set;
each column is nullable at the SQL level. -/
structure TargetRow where
  id : Option Value
  name : Option Value
  age : Option Value
deriving DecidableEq

/-- The restored database: tables by name. -/
abbrev TargetDB := List (String × List TargetRow)

def getTable : TargetDB → String → Option (List TargetRow)
  | [], _ => none
  | (t, rows) :: rest, nm => if t = nm then some rows else getTable rest nm

def setTable : TargetDB → String → List TargetRow → TargetDB
  | [], _, _ => []
  | (t, rows) :: rest, nm, newRows =>
    if t = nm then (t, newRows) :: rest else (t, rows) :: setTable rest nm newRows

/-- SQL three-valued equality collapsed to a Bool filter: `a = b` holds only
when both operands are non-NULL and equal (NULL = anything is not TRUE). -/
def sqlEq : Option Value → Option Value → Bool
  | some a, some b => decide (a = b)
  | _, _ => false

/-- Result of the information_schema existence query issued by `tableExists`
against the restored database; `Except.error` models a failed query. -/
abbrev Oracle := String → Except String Bool

/-- Embeds `tableExists` (src/cmd/main.go): on query error it logs and
returns false.  The second component is the list of log lines emitted. -/
def tableExists (oracle : Oracle) (tableName : String) : Bool × List String :=
  match oracle tableName with
  | .ok b => (b, [])
  | .error e =>
      (false, ["Error checking if table " ++ tableName
                 ++ " exists in restored database: " ++ e])

/-- Embeds the INSERT statement the replay engine executes:
`INSERT INTO t (id, name, age) VALUES ($1, $2, $3)`.  The fallback table has
`id SERIAL PRIMARY KEY` (src/init/init.go `restoreTable`), so a NULL or
duplicate id is rejected by the database. -/
def execInsert (db : TargetDB) (t : String) (idv nv av : Option Value) :
    Except String TargetDB :=
  match getTable db t with
  | none => .error ("error applying insert")
  | some rows =>
    if idv = none then .error ("error applying insert")
    else if rows.any (fun r => sqlEq r.id idv) then .error ("error applying insert")
    else .ok (setTable db t (rows ++ [⟨idv, nv, av⟩]))

/-- Embeds `UPDATE t SET name = $1, age = $2 WHERE id = $3`: every row whose
id SQL-equals the given id gets its name and age replaced; updating zero rows
is not an error. -/
def execUpdate (db : TargetDB) (t : String) (idv nv av : Option Value) :
    Except String TargetDB :=
  match getTable db t with
  | none => .error ("error applying update")
  | some rows =>
    .ok (setTable db t
      (rows.map (fun r => if sqlEq r.id idv then ⟨r.id, nv, av⟩ else r)))

/-- Embeds `DELETE FROM t WHERE id = $1`; deleting zero rows is not an error. -/
def execDelete (db : TargetDB) (t : String) (idv : Option Value) :
    Except String TargetDB :=
  match getTable db t with
  | none => .error ("error applying delete")
  | some rows =>
    .ok (setTable db t (rows.filter (fun r => !(sqlEq r.id idv))))

/-- Decode an optional payload the way the UPDATE and DELETE branches do:
the column being NULL leaves the Go map nil (`none`); a malformed payload
makes `json.Unmarshal` return an error. -/
def decodeOpt (which : String) : Option Payload → Except String (Option Fields)
  | none => .ok none
  | some (.obj fs) => .ok (some fs)
  | some .malformed => .error ("error unmarshalling " ++ which)

/-- Indexing a possibly-nil Go map: a nil map yields the zero value (NULL). -/
def goIndex : Option Fields → String → Option Value
  | none, _ => none
  | some fs, k => lookupField fs k

/-- Outcome of processing a single delta inside the replay loop. -/
inductive StepResult where
  | ok : TargetDB → List String → StepResult
  | fatal : String → StepResult
  | crash : StepResult
deriving DecidableEq

/-- The `switch delta.Action` body of `RestoreDatabase` (src/cmd/main.go).
In the INSERT branch the code dereferences `*delta.NewData` with no nil
check, so a NULL `new_data` is a runtime panic (`crash`).  An action outside
the three cases falls through the switch silently. -/
def applyAction (db : TargetDB) (d : Delta) : StepResult :=
  if d.action = "INSERT" then
    match d.new_data with
    | none => .crash
    | some .malformed => .fatal ("error unmarshalling new_data")
    | some (.obj fs) =>
      match execInsert db d.table_name (lookupField fs "id")
          (lookupField fs "name") (lookupField fs "age") with
      | .error e => .fatal e
      | .ok db2 => .ok db2 []
  else if d.action = "UPDATE" then
    match decodeOpt "old_data" d.old_data with
    | .error e => .fatal e
    | .ok oldM =>
      match decodeOpt "new_data" d.new_data with
      | .error e => .fatal e
      | .ok newM =>
        match execUpdate db d.table_name (goIndex oldM "id")
            (goIndex newM "name") (goIndex newM "age") with
        | .error e => .fatal e
        | .ok db2 => .ok db2 []
  else if d.action = "DELETE" then
    match decodeOpt "old_data" d.old_data with
    | .error e => .fatal e
    | .ok oldM =>
      match execDelete db d.table_name (goIndex oldM "id") with
      | .error e => .fatal e
      | .ok db2 => .ok db2 []
  else
    .ok db []

/-- One iteration of the replay loop: the table-existence gate, then the
action switch.  A false gate (missing table or failed oracle query) skips the
delta with a log line and no error. -/
def applyDelta (oracle : Oracle) (db : TargetDB) (d : Delta) : StepResult :=
  if (tableExists oracle d.table_name).1 then
    applyAction db d
  else
    .ok db ((tableExists oracle d.table_name).2
      ++ ["Skipping delta for non-existent table " ++ d.table_name
            ++ " in the restored database"])

/-- Result of a whole replay run.  `fatal` and `crash` carry the target
state reached when the run stopped: there is no rollback. -/
inductive ReplayResult where
  | ok : TargetDB → List String → ReplayResult
  | fatal : String → TargetDB → List String → ReplayResult
  | crash : TargetDB → List String → ReplayResult
deriving DecidableEq

/-- Prepend already-emitted log lines to the result of the rest of a run. -/
def withLogs (pre : List String) : ReplayResult → ReplayResult
  | .ok db l => .ok db (pre ++ l)
  | .fatal m db l => .fatal m db (pre ++ l)
  | .crash db l => .crash db (pre ++ l)

/-- The `for rows.Next()` loop of `RestoreDatabase`: deltas are processed in
the order the read returned them; the first returned error or panic ends the
run with the target state reached so far. -/
def replayLoop (oracle : Oracle) (db : TargetDB) : List Delta → ReplayResult
  | [] => .ok db []
  | d :: rest =>
    match applyDelta oracle db d with
    | .ok db2 lgs => withLogs lgs (replayLoop oracle db2 rest)
    | .fatal m => .fatal m db []
    | .crash => .crash db []

/-- Timestamp order on stored deltas: the sort key requested by the query
`SELECT ... FROM deltas ORDER BY timestamp` (the only key it names). -/
def tsLe (a b : Delta) : Prop := a.timestamp ≤ b.timestamp

instance : DecidableRel tsLe :=
  fun a b => inferInstanceAs (Decidable (a.timestamp ≤ b.timestamp))

instance : IsTotal Delta tsLe := ⟨fun a b => Nat.le_total a.timestamp b.timestamp⟩

instance : IsTrans Delta tsLe := ⟨fun _ _ _ hab hbc => Nat.le_trans hab hbc⟩

/-- Strict timestamp order: holds pairwise along a log exactly when its
capture instants are distinct and in assignment order. -/
def tsLt (a b : Delta) : Prop := a.timestamp < b.timestamp

instance : DecidableRel tsLt :=
  fun a b => inferInstanceAs (Decidable (a.timestamp < b.timestamp))

/-- The read of the delta log, modelled as a stable sort of the stored
records on the single requested key.  (SQL fixes only that the output is a
timestamp-sorted permutation of the log; a stable sort is one permitted
behaviour.) -/
def sortByTimestamp (ds : List Delta) : List Delta := List.insertionSort tsLe ds

/-- The contract `ORDER BY timestamp` actually imposes on a read: the output
is a permutation of the stored records that is nondecreasing in timestamp.
Nothing more is requested — in particular no tie-break key. -/
def ReadPermitted (stored out : List Delta) : Prop :=
  out.Perm stored ∧ out.Sorted tsLe

/-- The claimed read order: timestamp order with ties broken by id. -/
def tsIdSorted (l : List Delta) : Prop :=
  l.Sorted (fun a b =>
    a.timestamp < b.timestamp ∨ (a.timestamp = b.timestamp ∧ a.id ≤ b.id))

/-- Embeds `RestoreDatabase` (src/cmd/main.go): read the full delta log in
timestamp order and run the replay loop over it against the restored
database. -/
def RestoreDatabase (oracle : Oracle) (db : TargetDB) (stored : List Delta) :
    ReplayResult :=
  replayLoop oracle db (sortByTimestamp stored)

/-- A row of a tracked source table with the fixed (id, name, age) schema;
`id` is the primary key. -/
structure SrcRow where
  id : Int
  name : String
  age : Int
deriving DecidableEq

/-- A mutating statement run against a tracked source table: insert a row;
update the row whose identifier is `i`, setting its identifier to `j` (the
statement may change the key column), its name and its age; or delete by id. -/
inductive SrcOp where
  | ins : SrcRow → SrcOp
  | upd : Int → Int → String → Int → SrcOp
  | del : Int → SrcOp

/-- An update that leaves the identifier column unchanged.  The replay
statement `UPDATE t SET name = $1, age = $2 WHERE id = $3` never sets `id`,
so only logs of key-preserving updates can be reproduced. -/
def keyPreserving : SrcOp → Prop
  | .upd i j _ _ => j = i
  | _ => True

instance : DecidablePred keyPreserving := fun op =>
  match op with
  | .ins _ => isTrue trivial
  | .upd i j _ _ => inferInstanceAs (Decidable (j = i))
  | .del _ => isTrue trivial

/-- `row_to_json` for the fixed (id, name, age) row shape: the payload the
installed trigger writes into `old_data` / `new_data`. -/
def encodeRow (r : SrcRow) : Payload :=
  .obj [("id", .vint r.id), ("name", .vstr r.name), ("age", .vint r.age)]

def hasId (s : List SrcRow) (i : Int) : Bool := s.any (fun x => decide (x.id = i))

/-- One source statement together with the trigger installed by
`addTriggersToTables` (src/init/init.go): the statement mutates the source
table and, in the same transaction, the row-level trigger records at most one
snapshot `(action, old_data, new_data)`.  An insert of a duplicate primary
key fails (no mutation, no trigger firing); an update or delete matching no
row fires no row-level trigger. -/
def srcStep (s : List SrcRow) :
    SrcOp → List SrcRow × Option (String × Option Payload × Option Payload)
  | .ins r =>
    if hasId s r.id then (s, none)
    else (s ++ [r], some ("INSERT", none, some (encodeRow r)))
  | .upd i j nm ag =>
    match s.find? (fun x => decide (x.id = i)) with
    | none => (s, none)
    | some old =>
      if j ≠ i ∧ hasId s j = true then (s, none)
      else (s.map (fun x => if x.id = i then ⟨j, nm, ag⟩ else x),
            some ("UPDATE", some (encodeRow old), some (encodeRow ⟨j, nm, ag⟩)))
  | .del i =>
    match s.find? (fun x => decide (x.id = i)) with
    | none => (s, none)
    | some old =>
      (s.filter (fun x => !(decide (x.id = i))),
       some ("DELETE", some (encodeRow old), none))

/-- Run a statement sequence against a source table named `tbl` while the
capture hook is installed: each statement carries the value of its
transaction's CURRENT_TIMESTAMP (successive transactions may reuse an
instant, so timestamps can tie); the log assigns `id` from the strictly
increasing SERIAL counter `n`.  Returns the final source state and the delta
log produced. -/
def captureRun (tbl : String) :
    List (Nat × SrcOp) → List SrcRow → Nat → List SrcRow × List Delta
  | [], s, _ => (s, [])
  | (t, op) :: rest, s, n =>
    match srcStep s op with
    | (s2, none) => captureRun tbl rest s2 n
    | (s2, some (act, od, nd)) =>
      let res := captureRun tbl rest s2 (n + 1)
      (res.1, ⟨n, act, tbl, od, nd, t⟩ :: res.2)

/-- The target-table image of a source row after a faithful replay. -/
def rowOfSrc (r : SrcRow) : TargetRow :=
  ⟨some (.vint r.id), some (.vstr r.name), some (.vint r.age)⟩

/-- The existence oracle of a restored database containing exactly the one
table `tbl`. -/
def singleOracle (tbl : String) : Oracle := fun t => .ok (t == tbl)

/-- The per-action payload invariant of captured deltas (spec section 3). -/
def payloadInvariant (d : Delta) : Prop :=
  (d.action = "INSERT" → d.new_data ≠ none ∧ d.old_data = none) ∧
  (d.action = "DELETE" → d.old_data ≠ none ∧ d.new_data = none) ∧
  (d.action = "UPDATE" → d.old_data ≠ none ∧ d.new_data ≠ none)

/-- Whether a replay run ended in a runtime panic. -/
def isCrash : ReplayResult → Prop
  | .crash _ _ => True
  | _ => False

instance (r : ReplayResult) : Decidable (isCrash r) := by
  cases r <;> simp [isCrash] <;> infer_instance

/-- Schema objects present in the source database: the generated trigger
functions and triggers, by name. -/
structure SchemaState where
  functions : List String
  triggers : List String
deriving DecidableEq

/-- `CREATE OR REPLACE FUNCTION log_<t>_changes() ...`: succeeds whether or
not the function already exists. -/
def createOrReplaceFunction (st : SchemaState) (f : String) : SchemaState :=
  if st.functions.contains f then st else ⟨st.functions ++ [f], st.triggers⟩

/-- `CREATE TRIGGER <t>_trigger ...` — plain CREATE, no OR REPLACE: fails
when a trigger of that name already exists on the table. -/
def createTrigger (st : SchemaState) (tr : String) : Except String SchemaState :=
  if st.triggers.contains tr then .error ("trigger already exists")
  else .ok ⟨st.functions, st.triggers ++ [tr]⟩

/-- The per-table body of `addTriggersToTables` (src/init/init.go): create or
replace the trigger function, then create the trigger; a trigger-creation
error is wrapped and returned. -/
def installTable (st : SchemaState) (tbl : String) : Except String SchemaState :=
  let st1 := createOrReplaceFunction st ("log_" ++ tbl ++ "_changes")
  match createTrigger st1 (tbl ++ "_trigger") with
  | .error _ => .error ("failed to create trigger for table " ++ tbl)
  | .ok st2 => .ok st2

/-- Embeds `addTriggersToTables`: walk the table list, skip `deltas`,
install hooks on each table, abort on the first failure. -/
def addTriggersToTables (st : SchemaState) : List String → Except String SchemaState
  | [] => .ok st
  | t :: rest =>
    if t = "deltas" then addTriggersToTables st rest
    else
      match installTable st t with
      | .error e => .error e
      | .ok st2 => addTriggersToTables st2 rest

/-- An oracle whose existence query always succeeds with true. -/
def okOracle : Oracle := fun _ => .ok true

/-- An oracle whose existence query always fails. -/
def failOracle : Oracle := fun _ => .error ("connection refused")

theorem withLogs_nil (r : ReplayResult) : withLogs [] r = r := by
  cases r <;> simp [withLogs]

theorem withLogs_append (a b : List String) (r : ReplayResult) :
    withLogs a (withLogs b r) = withLogs (a ++ b) r := by
  cases r <;> simp [withLogs]

theorem sqlEq_none (a : Option Value) : sqlEq a none = false := by
  cases a <;> rfl

theorem sqlEq_vint (a b : Int) :
    sqlEq (some (Value.vint a)) (some (Value.vint b)) = decide (a = b) := by
  by_cases h : a = b <;> simp [sqlEq, h]

theorem setTable_eq_of_getTable (db : TargetDB) (t : String) (rows : List TargetRow)
    (h : getTable db t = some rows) : setTable db t rows = db := by
  induction db with
  | nil => simp [getTable] at h
  | cons p rest ih =>
    obtain ⟨t0, r0⟩ := p
    by_cases ht : t0 = t
    · subst ht
      simp [getTable] at h
      simp [setTable, h]
    · simp [getTable, ht] at h
      simp [setTable, ht, ih h]

theorem replayLoop_append_ok (oracle : Oracle) :
    ∀ (pre : List Delta) (db0 db1 : TargetDB) (lgs : List String) (ys : List Delta),
      replayLoop oracle db0 pre = .ok db1 lgs →
      replayLoop oracle db0 (pre ++ ys) = withLogs lgs (replayLoop oracle db1 ys) := by
  intro pre
  induction pre with
  | nil =>
    intro db0 db1 lgs ys h
    simp only [replayLoop] at h
    obtain ⟨h1, h2⟩ := ReplayResult.ok.inj h
    subst h1
    subst h2
    simp [withLogs_nil]
  | cons d pre ih =>
    intro db0 db1 lgs ys h
    simp only [replayLoop, List.cons_append, List.append_eq] at h ⊢
    cases happ : applyDelta oracle db0 d with
    | ok db2 l2 =>
      simp only [happ] at h ⊢
      cases hrec : replayLoop oracle db2 pre with
      | ok db3 l3 =>
        rw [hrec] at h
        simp only [withLogs] at h
        obtain ⟨h1, h2⟩ := ReplayResult.ok.inj h
        subst h1
        rw [ih db2 db3 l3 ys hrec, withLogs_append, h2]
      | fatal m db3 l3 => rw [hrec] at h; simp [withLogs] at h
      | crash db3 l3 => rw [hrec] at h; simp [withLogs] at h
    | fatal m => simp only [happ] at h; simp at h
    | crash => simp only [happ] at h; simp at h

theorem any_map_rowOfSrc (s : List SrcRow) (i : Int) :
    (s.map rowOfSrc).any (fun r => sqlEq r.id (some (Value.vint i))) = hasId s i := by
  induction s with
  | nil => rfl
  | cons x s ih =>
    simp only [List.map_cons, List.any_cons, hasId] at ih ⊢
    rw [ih]
    simp [rowOfSrc, sqlEq_vint]

theorem map_update_rowOfSrc (s : List SrcRow) (i : Int) (nm : String) (ag : Int) :
    (s.map rowOfSrc).map
        (fun r => if sqlEq r.id (some (Value.vint i))
                  then ⟨r.id, some (Value.vstr nm), some (Value.vint ag)⟩ else r)
      = (s.map (fun x => if x.id = i then ⟨i, nm, ag⟩ else x)).map rowOfSrc := by
  induction s with
  | nil => rfl
  | cons x s ih =>
    by_cases h : x.id = i <;> simpa [rowOfSrc, sqlEq_vint, h] using ih

theorem filter_delete_rowOfSrc (s : List SrcRow) (i : Int) :
    (s.map rowOfSrc).filter (fun r => !(sqlEq r.id (some (Value.vint i))))
      = (s.filter (fun x => !(decide (x.id = i)))).map rowOfSrc := by
  induction s with
  | nil => rfl
  | cons x s ih =>
    by_cases h : x.id = i <;>
      simpa [List.filter_cons, rowOfSrc, sqlEq_vint, h] using ih

theorem applyDelta_captured_insert (tbl : String) (s : List SrcRow) (r : SrcRow)
    (n t : Nat) (h : hasId s r.id = false) :
    applyDelta (singleOracle tbl) [(tbl, s.map rowOfSrc)]
        ⟨n, "INSERT", tbl, none, some (encodeRow r), t⟩
      = .ok [(tbl, (s ++ [r]).map rowOfSrc)] [] := by
  simp [applyDelta, tableExists, singleOracle, applyAction, encodeRow,
        lookupField, execInsert, getTable, setTable, any_map_rowOfSrc, h, rowOfSrc]

theorem applyDelta_captured_update (tbl : String) (s : List SrcRow) (i : Int)
    (nm : String) (ag : Int) (old : SrcRow) (n t : Nat) (hold : old.id = i) :
    applyDelta (singleOracle tbl) [(tbl, s.map rowOfSrc)]
        ⟨n, "UPDATE", tbl, some (encodeRow old), some (encodeRow ⟨i, nm, ag⟩), t⟩
      = .ok [(tbl, (s.map (fun x => if x.id = i then ⟨i, nm, ag⟩ else x)).map rowOfSrc)]
          [] := by
  subst hold
  simp [applyDelta, tableExists, singleOracle, applyAction, decodeOpt, goIndex,
        encodeRow, lookupField, execUpdate, getTable, setTable]
  intro a _
  by_cases h : a.id = old.id <;> simp [rowOfSrc, sqlEq_vint, h]

theorem applyDelta_captured_delete (tbl : String) (s : List SrcRow) (i : Int)
    (old : SrcRow) (n t : Nat) (hold : old.id = i) :
    applyDelta (singleOracle tbl) [(tbl, s.map rowOfSrc)]
        ⟨n, "DELETE", tbl, some (encodeRow old), none, t⟩
      = .ok [(tbl, (s.filter (fun x => !(decide (x.id = i)))).map rowOfSrc)] [] := by
  subst hold
  simp [applyDelta, tableExists, singleOracle, applyAction, decodeOpt, goIndex,
        encodeRow, lookupField, execDelete, getTable, setTable,
        filter_delete_rowOfSrc]

theorem replayLoop_captureRun (tbl : String) (ops : List (Nat × SrcOp)) :
    ∀ (s : List SrcRow) (n : Nat),
      (∀ p ∈ ops, keyPreserving p.2) →
      replayLoop (singleOracle tbl) [(tbl, s.map rowOfSrc)] (captureRun tbl ops s n).2
        = .ok [(tbl, ((captureRun tbl ops s n).1).map rowOfSrc)] [] := by
  induction ops with
  | nil => intro s n _; rfl
  | cons p rest ih =>
    intro s n hkey
    obtain ⟨t, op⟩ := p
    have hrest : ∀ q ∈ rest, keyPreserving q.2 :=
      fun q hq => hkey q (List.mem_cons_of_mem _ hq)
    cases op with
    | ins r =>
      cases hcase : hasId s r.id with
      | true => simpa [captureRun, srcStep, hcase] using ih s n hrest
      | false =>
        simp only [captureRun, srcStep, hcase, Bool.false_eq_true, if_false]
        simp only [replayLoop, applyDelta_captured_insert tbl s r n t hcase,
                   withLogs_nil]
        simpa using ih (s ++ [r]) (n + 1) hrest
    | upd i j nm ag =>
      have hji : j = i := hkey (t, SrcOp.upd i j nm ag) (List.mem_cons_self _ _)
      subst hji
      cases hf : s.find? (fun x => decide (x.id = j)) with
      | none => simpa [captureRun, srcStep, hf] using ih s n hrest
      | some old =>
        have hid : old.id = j := by simpa using List.find?_some hf
        simp only [captureRun, srcStep, hf, ne_eq, eq_self_iff_true, not_true,
                   false_and, if_false]
        simp only [replayLoop, applyDelta_captured_update tbl s j nm ag old n t hid,
                   withLogs_nil]
        simpa using ih (s.map (fun x => if x.id = j then ⟨j, nm, ag⟩ else x))
          (n + 1) hrest
    | del i =>
      cases hf : s.find? (fun x => decide (x.id = i)) with
      | none => simpa [captureRun, srcStep, hf] using ih s n hrest
      | some old =>
        have hid : old.id = i := by simpa using List.find?_some hf
        simp only [captureRun, srcStep, hf]
        simp only [replayLoop, applyDelta_captured_delete tbl s i old n t hid,
                   withLogs_nil]
        simpa using ih (s.filter (fun x => !(decide (x.id = i)))) (n + 1) hrest

theorem perm_sorted_eq_of_pairwise_lt :
    ∀ (l out : List Delta), List.Pairwise tsLt l → out.Perm l →
      List.Sorted tsLe out → out = l := by
  intro l
  induction l with
  | nil => intro out _ hperm _; exact hperm.eq_nil
  | cons a l ih =>
    intro out hpw hperm hsort
    have ha : a ∈ out := hperm.mem_iff.mpr (List.mem_cons_self a l)
    cases out with
    | nil => simp at ha
    | cons b out2 =>
      rcases List.mem_cons.mp (hperm.subset (List.mem_cons_self b out2)) with hba | hbl
      · subst hba
        have hperm2 : out2.Perm l := hperm.cons_inv
        rw [ih out2 (List.pairwise_cons.mp hpw).2 hperm2 (List.sorted_cons.mp hsort).2]
      · have hlt : a.timestamp < b.timestamp := (List.pairwise_cons.mp hpw).1 b hbl
        rcases List.mem_cons.mp ha with hab | haout
        · rw [hab] at hlt
          exact absurd hlt (Nat.lt_irrefl _)
        · have hle : b.timestamp ≤ a.timestamp :=
            (List.sorted_cons.mp hsort).1 a haout
          exact absurd (Nat.lt_of_lt_of_le hlt hle) (Nat.lt_irrefl _)

theorem applyAction_crash (db : TargetDB) (d : Delta)
    (h : applyAction db d = .crash) :
    d.action = "INSERT" ∧ d.new_data = none := by
  unfold applyAction at h
  by_cases h1 : d.action = "INSERT"
  · rw [if_pos h1] at h
    cases hnd : d.new_data with
    | none => exact ⟨h1, rfl⟩
    | some p =>
      rw [hnd] at h
      cases p with
      | malformed => simp at h
      | obj fs =>
        rcases hexec : execInsert db d.table_name (lookupField fs "id")
            (lookupField fs "name") (lookupField fs "age") with e | db2 <;>
          simp [hexec] at h
  · rw [if_neg h1] at h
    by_cases h2 : d.action = "UPDATE"
    · rw [if_pos h2] at h
      rcases hdo : decodeOpt "old_data" d.old_data with e | oldM
      · simp [hdo] at h
      · rcases hdn : decodeOpt "new_data" d.new_data with e | newM
        · simp [hdo, hdn] at h
        · rcases hex : execUpdate db d.table_name (goIndex oldM "id")
              (goIndex newM "name") (goIndex newM "age") with e | db2 <;>
            simp [hdo, hdn, hex] at h
    · rw [if_neg h2] at h
      by_cases h3 : d.action = "DELETE"
      · rw [if_pos h3] at h
        rcases hdo : decodeOpt "old_data" d.old_data with e | oldM
        · simp [hdo] at h
        · rcases hex : execDelete db d.table_name (goIndex oldM "id") with e | db2 <;>
            simp [hdo, hex] at h
      · rw [if_neg h3] at h; simp at h

theorem applyDelta_crash (oracle : Oracle) (db : TargetDB) (d : Delta)
    (h : applyDelta oracle db d = .crash) :
    d.action = "INSERT" ∧ d.new_data = none := by
  unfold applyDelta at h
  by_cases hg : (tableExists oracle d.table_name).1 = true
  · rw [if_pos hg] at h; exact applyAction_crash db d h
  · rw [if_neg hg] at h; simp at h

theorem replayLoop_no_crash_aux (oracle : Oracle) (ds : List Delta) :
    ∀ db : TargetDB,
      (∀ d ∈ ds, ¬ (d.action = "INSERT" ∧ d.new_data = none)) →
      ¬ isCrash (replayLoop oracle db ds) := by
  induction ds with
  | nil => intro db _; simp [replayLoop, isCrash]
  | cons d rest ih =>
    intro db h
    simp only [replayLoop]
    cases happ : applyDelta oracle db d with
    | ok db2 lgs =>
      have hr := ih db2 (fun e he => h e (List.mem_cons_of_mem d he))
      cases hres : replayLoop oracle db2 rest with
      | ok db3 l3 => simp [hres, withLogs, isCrash]
      | fatal m db3 l3 => simp [hres, withLogs, isCrash]
      | crash db3 l3 => rw [hres] at hr; simp [isCrash] at hr
    | fatal m => simp [isCrash]
    | crash =>
      exact absurd (applyDelta_crash oracle db d happ) (h d (List.mem_cons_self d rest))

/-- A pair of deltas sharing one capture timestamp, stored with id 2 first. -/
def dTieA : Delta := ⟨2, "INSERT", "t", none, some (.obj []), 5⟩

def dTieB : Delta := ⟨1, "INSERT", "t", none, some (.obj []), 5⟩

def dSkip : Delta := ⟨7, "INSERT", "missing", none, some (.obj []), 3⟩

def dAfter : Delta := ⟨2, "INSERT", "t", none, some (.obj []), 2⟩

def dIns1 : Delta := ⟨1, "INSERT", "t", none,
  some (.obj [("id", .vint 1), ("name", .vstr "A"), ("age", .vint 5)]), 1⟩

def dUpdNull : Delta := ⟨3, "UPDATE", "t", none,
  some (.obj [("id", .vint 1), ("name", .vstr "B"), ("age", .vint 7)]), 3⟩

def dTrunc : Delta := ⟨4, "TRUNCATE", "t", none, none, 4⟩

def dNullNew : Delta := ⟨5, "INSERT", "t", none, none, 5⟩

/-- Claim C1 counterexample: for the identifier-changing source sequence —
insert (1, A, 5); update row 1 setting its id to 2 — replaying the captured
log into an empty matching target leaves a row with id 1, because the replay
statement UPDATE ... SET name, age WHERE id = old id never sets the id
column, while the source table ends with a row with id 2: the unqualified
reconstruction guarantee is false. -/
theorem restore_reconstructs_counterexample :
    RestoreDatabase (singleOracle "t") [("t", [])]
        (captureRun "t" [(0, .ins ⟨1, "A", 5⟩), (1, .upd 1 2 "A" 5)] [] 0).2
      = .ok [("t", [⟨some (.vint 1), some (.vstr "A"), some (.vint 5)⟩])] [] ∧
    ((captureRun "t" [(0, .ins ⟨1, "A", 5⟩), (1, .upd 1 2 "A" 5)] [] 0).1).map
        rowOfSrc
      = [⟨some (.vint 2), some (.vstr "A"), some (.vint 5)⟩] ∧
    (ReplayResult.ok [("t", [⟨some (.vint 1), some (.vstr "A"), some (.vint 5)⟩])]
        [] : ReplayResult)
      ≠ .ok [("t", [⟨some (.vint 2), some (.vstr "A"), some (.vint 5)⟩])] [] :=
  ⟨rfl, rfl, by decide⟩

/-- Claim C1 (amended): replaying the full, unmodified captured log against
an empty pre-existing target with the matching fixed (id, name, age) row
shape reproduces the source table's final state, provided every captured
update preserves the row identifier (the replay UPDATE statement never sets
the id column) and the log's capture timestamps are strictly increasing —
the read guarantees timestamp order only, so equal-timestamp logs have no
deterministic replay order; the conclusion then holds for every read output
the query contract permits.  For the concrete sequence insert (1, A, 5);
update row 1 to age 6; insert (2, B, 9); delete row 1, replay yields exactly
one row, (2, B, 9). -/
theorem restore_reconstructs_amended :
    (∀ (tbl : String) (ops : List (Nat × SrcOp)) (out : List Delta),
        (∀ p ∈ ops, keyPreserving p.2) →
        List.Pairwise tsLt (captureRun tbl ops [] 0).2 →
        ReadPermitted (captureRun tbl ops [] 0).2 out →
        replayLoop (singleOracle tbl) [(tbl, [])] out
          = .ok [(tbl, ((captureRun tbl ops [] 0).1).map rowOfSrc)] []) ∧
    RestoreDatabase (singleOracle "t") [("t", [])]
        (captureRun "t"
          [(0, .ins ⟨1, "A", 5⟩), (1, .upd 1 1 "A" 6),
           (2, .ins ⟨2, "B", 9⟩), (3, .del 1)] [] 0).2
      = .ok [("t", [⟨some (.vint 2), some (.vstr "B"), some (.vint 9)⟩])] [] := by
  constructor
  · intro tbl ops out hkey hpw hread
    rw [perm_sorted_eq_of_pairwise_lt _ out hpw hread.1 hread.2]
    exact replayLoop_captureRun tbl ops [] 0 hkey
  · rfl

theorem restore_reconstructs_amended_witness :
    replayLoop (singleOracle "t") [("t", [])]
        (captureRun "t" [(0, SrcOp.ins ⟨1, "A", 5⟩)] [] 0).2
      = .ok [("t", [⟨some (.vint 1), some (.vstr "A"), some (.vint 5)⟩])] [] :=
  restore_reconstructs_amended.1 "t" [(0, SrcOp.ins ⟨1, "A", 5⟩)]
    (captureRun "t" [(0, SrcOp.ins ⟨1, "A", 5⟩)] [] 0).2
    (by decide) (by decide) ⟨List.Perm.refl _, by decide⟩

/-- Claim C2 counterexample: the read the replay engine performs orders by
timestamp only, so it may return two equal-timestamp deltas with ids 2 then
1 — an output the claimed (timestamp, id-ascending) order forbids. -/
theorem read_order_counterexample :
    ReadPermitted [dTieA, dTieB] [dTieA, dTieB] ∧ ¬ tsIdSorted [dTieA, dTieB] := by
  refine ⟨⟨List.Perm.refl _, ?_⟩, ?_⟩
  · simp [List.sorted_cons, tsLe, dTieA, dTieB]
  · intro hcon
    rcases List.sorted_cons.mp hcon with ⟨hhead, _⟩
    rcases hhead dTieB (by simp) with h1 | h2
    · simp [dTieA, dTieB] at h1
    · rcases h2 with ⟨_, hle⟩
      simp [dTieA, dTieB] at hle

/-- Claim C2 (amended): reading the delta log returns a permutation of the
stored records that is nondecreasing in timestamp; the query orders by
timestamp only, so no tie-break among equal timestamps is guaranteed. -/
theorem read_order_timestamp_only (stored : List Delta) :
    ReadPermitted stored (sortByTimestamp stored) :=
  ⟨List.perm_insertionSort tsLe stored, List.sorted_insertionSort tsLe stored⟩

/-- Claim C3: every delta record the capture hook produces satisfies the
per-action payload invariant — INSERT has non-null new_data and null
old_data, DELETE has non-null old_data and null new_data, UPDATE has both
non-null. -/
theorem capture_payload_invariant (tbl : String) (ops : List (Nat × SrcOp)) :
    ∀ (s : List SrcRow) (n : Nat) (d : Delta),
      d ∈ (captureRun tbl ops s n).2 → payloadInvariant d := by
  induction ops with
  | nil => intro s n d hd; simp [captureRun] at hd
  | cons p rest ih =>
    intro s n d hd
    obtain ⟨t, op⟩ := p
    cases op with
    | ins r =>
      cases hcase : hasId s r.id with
      | true =>
        simp only [captureRun, srcStep, hcase, if_true] at hd
        exact ih s n d hd
      | false =>
        simp only [captureRun, srcStep, hcase, Bool.false_eq_true, if_false] at hd
        rcases List.mem_cons.mp hd with h1 | h2
        · subst h1; simp [payloadInvariant]
        · exact ih (s ++ [r]) (n + 1) d h2
    | upd i j nm ag =>
      cases hf : s.find? (fun x => decide (x.id = i)) with
      | none =>
        simp only [captureRun, srcStep, hf] at hd
        exact ih s n d hd
      | some old =>
        by_cases hpk : (j ≠ i ∧ hasId s j = true)
        · simp only [captureRun, srcStep, hf, if_pos hpk] at hd
          exact ih s n d hd
        · simp only [captureRun, srcStep, hf, if_neg hpk] at hd
          rcases List.mem_cons.mp hd with h1 | h2
          · subst h1; simp [payloadInvariant]
          · exact ih _ (n + 1) d h2
    | del i =>
      cases hf : s.find? (fun x => decide (x.id = i)) with
      | none =>
        simp only [captureRun, srcStep, hf] at hd
        exact ih s n d hd
      | some old =>
        simp only [captureRun, srcStep, hf] at hd
        rcases List.mem_cons.mp hd with h1 | h2
        · subst h1; simp [payloadInvariant]
        · exact ih _ (n + 1) d h2

theorem capture_payload_invariant_witness :
    (⟨0, "INSERT", "t", none, some (encodeRow ⟨1, "A", 5⟩), 0⟩ : Delta) ∈
        (captureRun "t" [(0, SrcOp.ins ⟨1, "A", 5⟩)] [] 0).2 ∧
    payloadInvariant ⟨0, "INSERT", "t", none, some (encodeRow ⟨1, "A", 5⟩), 0⟩ :=
  ⟨by decide,
   capture_payload_invariant "t" [(0, SrcOp.ins ⟨1, "A", 5⟩)] [] 0 _ (by decide)⟩

/-- Claim C4 (a code bug): re-running hook installation on an
already-instrumented table is not idempotent.  The trigger function is
replaced (CREATE OR REPLACE FUNCTION), but the trigger itself is created
with plain CREATE TRIGGER, so the second installation run fails with an
error instead of succeeding. -/
theorem install_not_idempotent :
    addTriggersToTables ⟨[], []⟩ ["users"]
      = .ok ⟨["log_users_changes"], ["users_trigger"]⟩ ∧
    addTriggersToTables ⟨["log_users_changes"], ["users_trigger"]⟩ ["users"]
      = .error ("failed to create trigger for table users") :=
  ⟨rfl, rfl⟩

/-- Claim C5: a delta whose target table the existence gate reports absent —
whether the oracle answered that it does not exist, or the oracle query
failed (conservatively treated as absent, with the error logged) — is
skipped with a log line, not an error, and replay continues with the
remaining deltas against an unchanged target. -/
theorem replay_skips_missing_table (oracle : Oracle) (db : TargetDB) (d : Delta)
    (rest : List Delta)
    (h : (tableExists oracle d.table_name).1 = false) :
    replayLoop oracle db (d :: rest)
      = withLogs ((tableExists oracle d.table_name).2
          ++ ["Skipping delta for non-existent table " ++ d.table_name
                ++ " in the restored database"])
          (replayLoop oracle db rest) := by
  simp only [replayLoop, applyDelta, h, Bool.false_eq_true, if_false]

theorem replay_skips_missing_table_witness :
    (tableExists failOracle dSkip.table_name).1 = false ∧
    replayLoop failOracle [] [dSkip]
      = withLogs ((tableExists failOracle dSkip.table_name).2
          ++ ["Skipping delta for non-existent table " ++ dSkip.table_name
                ++ " in the restored database"])
          (replayLoop failOracle [] []) :=
  ⟨rfl, replay_skips_missing_table failOracle [] dSkip [] rfl⟩

/-- Claim C7: a failure applying an individual delta aborts the replay run
with that error before any later delta is processed, and the target keeps
exactly the state the successfully applied prefix produced — there is no
compensating rollback. -/
theorem apply_failure_aborts (oracle : Oracle) (db0 db1 : TargetDB)
    (pre rest : List Delta) (d : Delta) (lgs : List String) (m : String)
    (hpre : replayLoop oracle db0 pre = .ok db1 lgs)
    (hfail : applyDelta oracle db1 d = .fatal m) :
    replayLoop oracle db0 (pre ++ d :: rest) = .fatal m db1 lgs := by
  rw [replayLoop_append_ok oracle pre db0 db1 lgs (d :: rest) hpre]
  simp [replayLoop, hfail, withLogs]

theorem apply_failure_aborts_witness :
    replayLoop okOracle [("t", [])] ([dIns1] ++ dIns1 :: [dAfter])
      = .fatal ("error applying insert")
          [("t", [⟨some (.vint 1), some (.vstr "A"), some (.vint 5)⟩])] [] :=
  apply_failure_aborts okOracle [("t", [])]
    [("t", [⟨some (.vint 1), some (.vstr "A"), some (.vint 5)⟩])]
    [dIns1] [dAfter] dIns1 [] ("error applying insert") rfl rfl

/-- Claim C8: the UPDATE path does not check old_data for null before use: an
UPDATE delta whose old_data is null is not rejected with an error — the
engine executes the update with a missing (NULL) identifier, which matches no
row, and replay continues with the target unchanged. -/
theorem update_null_old_data (oracle : Oracle) (db : TargetDB) (d : Delta)
    (rest : List Delta) (rows : List TargetRow)
    (hact : d.action = "UPDATE") (hold : d.old_data = none)
    (hnew : d.new_data ≠ some Payload.malformed)
    (hgate : (tableExists oracle d.table_name).1 = true)
    (htab : getTable db d.table_name = some rows) :
    replayLoop oracle db (d :: rest) = replayLoop oracle db rest := by
  rcases hnd : d.new_data with _ | p
  · simp [replayLoop, applyDelta, hgate, applyAction, hact, hold, hnd, decodeOpt,
          goIndex, execUpdate, htab, sqlEq_none,
          setTable_eq_of_getTable db d.table_name rows htab, withLogs_nil]
  · cases p with
    | malformed => exact absurd hnd hnew
    | obj fs =>
      simp [replayLoop, applyDelta, hgate, applyAction, hact, hold, hnd, decodeOpt,
            goIndex, execUpdate, htab, sqlEq_none,
            setTable_eq_of_getTable db d.table_name rows htab, withLogs_nil]

theorem update_null_old_data_witness :
    replayLoop okOracle [("t", [⟨some (.vint 1), some (.vstr "A"), some (.vint 5)⟩])]
        [dUpdNull]
      = replayLoop okOracle
          [("t", [⟨some (.vint 1), some (.vstr "A"), some (.vint 5)⟩])] [] :=
  update_null_old_data okOracle
    [("t", [⟨some (.vint 1), some (.vstr "A"), some (.vint 5)⟩])] dUpdNull []
    [⟨some (.vint 1), some (.vstr "A"), some (.vint 5)⟩]
    rfl rfl (by decide) rfl rfl

/-- Claim C9: a delta whose action lies outside the closed set INSERT,
UPDATE, DELETE and whose table passes the existence gate falls through the
action switch silently: no change to the target, no error, no log line, and
processing continues with the next delta. -/
theorem unknown_action_ignored (oracle : Oracle) (db : TargetDB) (d : Delta)
    (rest : List Delta)
    (hgate : (tableExists oracle d.table_name).1 = true)
    (h1 : d.action ≠ "INSERT") (h2 : d.action ≠ "UPDATE")
    (h3 : d.action ≠ "DELETE") :
    replayLoop oracle db (d :: rest) = replayLoop oracle db rest := by
  simp [replayLoop, applyDelta, hgate, applyAction, h1, h2, h3, withLogs_nil]

theorem unknown_action_ignored_witness :
    replayLoop okOracle [("t", [])] [dTrunc] = replayLoop okOracle [("t", [])] [] :=
  unknown_action_ignored okOracle [("t", [])] dTrunc [] rfl
    (by decide) (by decide) (by decide)

/-- Claim C10 counterexample: an INSERT delta whose new_data is null does not
make the engine return an error — the replay loop dereferences the nil
payload pointer, so the run ends in a runtime panic instead of returning. -/
theorem insert_null_new_data_crashes :
    replayLoop okOracle [("t", [])] [dNullNew] = .crash [("t", [])] [] := rfl

/-- Claim C10 (amended): for every stored log none of whose deltas is an
INSERT with null new_data, replay terminates normally with success or a
returned error; an INSERT delta with null new_data instead crashes the run
with a nil-pointer dereference, as the counterexample shows. -/
theorem replay_terminates_no_null_insert (oracle : Oracle) (db : TargetDB)
    (stored : List Delta)
    (h : ∀ d ∈ stored, ¬ (d.action = "INSERT" ∧ d.new_data = none)) :
    ¬ isCrash (RestoreDatabase oracle db stored) := by
  unfold RestoreDatabase
  exact replayLoop_no_crash_aux oracle (sortByTimestamp stored) db
    (fun d hd => h d ((List.perm_insertionSort tsLe stored).subset hd))

theorem replay_terminates_no_null_insert_witness :
    ¬ isCrash (RestoreDatabase okOracle [("t", [])] [dIns1]) :=
  replay_terminates_no_null_insert okOracle [("t", [])] [dIns1] (by decide)

end DeltaTracker
